import Mathlib

/-!
Verification of the exam-administration backend's answer-ingestion and
scoring logic.  The definitions below are a shallow embedding of the
JavaScript handlers in `src/unnamed/part_002` (with a duplicated scoring
loop in `src/Adminindex.js`):

* `POST /api/save-answer`          — `saveAnswer`
* `POST /api/save-all-answers`     — `saveAllAnswers`
* `POST /api/timeout-save-answers` — `timeoutSaveAnswers`
* `POST /api/complete-exam`        — `completeExam`
* `GET  /api/today-exam-results`   — `todayExamResults`
* `POST /api/verify-payment`       — `verifyPaymentCheck`

JavaScript dynamic values relevant to the handlers (an answer field can be
`undefined`, `null`, `NaN`, a number, or a string) are embedded as `JVal`.
JavaScript strings that the code inspects character by character (question
identifiers) are embedded as `List Char`; strings used only as opaque keys
or labels stay `String`.  Document-store writes are embedded as explicit
lists of `WriteOp` operations applied to a `Store`, with Firestore's
batched commit modelled as an all-or-nothing application of the list.
-/

namespace ExamBackend

/-- JavaScript values that can appear in an `answer` field of a request
body: `undefined`, `null`, `NaN`, an integer number, or a string. -/
inductive JVal where
  | undefinedJ
  | null
  | nan
  | int (n : Int)
  | str (s : String)
deriving DecidableEq, Repr

/-- JavaScript truthiness for the values of `JVal`:
`undefined`, `null`, `NaN`, `0` and `""` are falsy. -/
def jsTruthy : JVal → Bool
  | .undefinedJ => false
  | .null => false
  | .nan => false
  | .int n => n != 0
  | .str s => s != ""

/-- JavaScript truthiness of a request field embedded as `Option String`
(`none` is an absent field, i.e. `undefined`): absent and `""` are falsy. -/
def truthyS : Option String → Bool
  | none => false
  | some s => s != ""

/-- Value of the longest prefix of decimal digits of a character list,
accumulating into `acc`; `none` when the list starts with a non-digit. -/
def digitsPrefix : List Char → Option Nat → Option Nat
  | [], acc => acc
  | c :: cs, acc =>
    if c.isDigit then
      digitsPrefix cs (some ((acc.getD 0) * 10 + (c.toNat - '0'.toNat)))
    else acc

/-- JavaScript `parseInt` on a character sequence: skip leading
whitespace, read an optional sign, then the longest prefix of decimal
digits; `NaN` when no digit follows. -/
def parseIntChars (s : List Char) : JVal :=
  match s.dropWhile Char.isWhitespace with
  | '-' :: rest =>
    match digitsPrefix rest none with
    | none => .nan
    | some n => .int (-(n : Int))
  | '+' :: rest =>
    match digitsPrefix rest none with
    | none => .nan
    | some n => .int (n : Int)
  | rest =>
    match digitsPrefix rest none with
    | none => .nan
    | some n => .int (n : Int)

/-- JavaScript `parseInt` on a `JVal`: an integer number parses to itself
(via its decimal string), a string is parsed by `parseIntChars`, and
`undefined`/`null`/`NaN` parse to `NaN`. -/
def parseIntJ : JVal → JVal
  | .int n => .int n
  | .str s => parseIntChars s.toList
  | _ => .nan

/-- JavaScript strict equality `===` on `JVal`; in particular
`NaN === NaN` is `false` and values of different types are unequal. -/
def jsStrictEq : JVal → JVal → Bool
  | .int a, .int b => a == b
  | .str a, .str b => a == b
  | .null, .null => true
  | .undefinedJ, .undefinedJ => true
  | _, _ => false

/-- The question-id canonicalization applied identically by every
submission path:
`questionId.startsWith('Q') ? questionId : 'Q' + questionId`
(question identifiers are embedded as character lists). -/
def formatQuestionId (q : List Char) : List Char :=
  if ['Q'].isPrefixOf q then q else 'Q' :: q

/-- A stored answer document, as written by the submission paths.
`submittedVia` is `Option` because the bulk-save path writes no
provenance field at all (`none` embeds an absent field). -/
structure AnswerRecord where
  examName : String
  timestamp : String
  order : JVal
  answer : JVal
  skipped : Bool
  submittedVia : Option String
deriving DecidableEq, Repr

/-- A single document-store write issued by a handler. -/
inductive WriteOp where
  | setAnswer (registrationNumber : String) (questionKey : List Char)
      (record : AnswerRecord)
  | updateCandidate (candidateId : String) (examCompletedAt : String)
deriving DecidableEq, Repr

/-- Whether a write touches a Candidate document (rather than an answer
sub-document). -/
def touchesCandidate : WriteOp → Bool
  | .updateCandidate _ _ => true
  | .setAnswer _ _ _ => false

/-- JavaScript truthiness of a possibly-absent string field embedded as a
character list: absent (`none`) and the empty string are falsy. -/
def truthyC : Option (List Char) → Bool
  | none => false
  | some l => !l.isEmpty

/-- Request body of `POST /api/save-answer`.  The destructured fields may
each be absent (`undefined`); `skipped` is used only through
`skipped || false`, embedded as a `Bool`. -/
structure SaveAnswerRequest where
  registrationNumber : Option String
  questionId : Option (List Char)
  answer : JVal
  examName : Option String
  order : JVal
  skipped : Bool
deriving Repr

inductive SaveAnswerResponse where
  | missingFields
  | saved
deriving DecidableEq, Repr

/-- The answer data written by `POST /api/save-answer`:
`answer: parseInt(answer)` (regardless of `skipped`),
`skipped: skipped || false`, provenance tag `individual`. -/
def individualRecord (ts : String) (r : SaveAnswerRequest) : AnswerRecord :=
  { examName := r.examName.getD ""
    timestamp := ts
    order := r.order
    answer := parseIntJ r.answer
    skipped := r.skipped
    submittedVia := some "individual" }

/-- `POST /api/save-answer`: reject with 400 when
`!registrationNumber || !questionId || answer === undefined || !examName`;
otherwise write one answer document keyed by the canonicalized question
id. -/
def saveAnswer (ts : String) (r : SaveAnswerRequest) :
    SaveAnswerResponse × List WriteOp :=
  if !truthyS r.registrationNumber || !truthyC r.questionId ||
      r.answer == .undefinedJ || !truthyS r.examName then
    (.missingFields, [])
  else
    (.saved,
      [.setAnswer (r.registrationNumber.getD "")
        (formatQuestionId (r.questionId.getD []))
        (individualRecord ts r)])

/-- An element of the `answers` array of the batch submission paths; the
handlers destructure these fields and use them without validation. -/
structure AnswerTuple where
  registrationNumber : String
  questionId : List Char
  answer : JVal
  examName : String
  order : JVal
  skipped : Bool
deriving DecidableEq, Repr

inductive SaveAllResponse where
  | invalidFormat
  | saved
deriving DecidableEq, Repr

/-- The answer data built by `POST /api/save-all-answers` for one tuple:
skipped tuples store `answer: null, skipped: true`, answered tuples store
`answer: parseInt(answer), skipped: false`; no provenance field is
written on this path. -/
def bulkAnswerRecord (ts : String) (t : AnswerTuple) : AnswerRecord :=
  if t.skipped then
    { examName := t.examName, timestamp := ts, order := t.order
      answer := .null, skipped := true, submittedVia := none }
  else
    { examName := t.examName, timestamp := ts, order := t.order
      answer := parseIntJ t.answer, skipped := false, submittedVia := none }

/-- `POST /api/save-all-answers`: an empty array is rejected with 400
(`Invalid answers format`); otherwise every tuple is written under its
canonicalized question id in one batch. -/
def saveAllAnswers (ts : String) (answers : List AnswerTuple) :
    SaveAllResponse × List WriteOp :=
  if answers.isEmpty then (.invalidFormat, [])
  else
    (.saved,
      answers.map fun t =>
        .setAnswer t.registrationNumber (formatQuestionId t.questionId)
          (bulkAnswerRecord ts t))

/-- Response of `POST /api/timeout-save-answers`; `savedCount` is absent
(`none`) on the empty-filter fast path. -/
structure TimeoutResponse where
  success : Bool
  savedCount : Option Nat
deriving DecidableEq, Repr

/-- The attempted-question filter of the timeout path:
`!answer.skipped && answer.answer !== null && answer.answer !== undefined`. -/
def timeoutAttempted (t : AnswerTuple) : Bool :=
  !t.skipped && t.answer != .null && t.answer != .undefinedJ

/-- The answer data written by the timeout path for one attempted tuple. -/
def timeoutRecord (ts : String) (t : AnswerTuple) : AnswerRecord :=
  { examName := t.examName, timestamp := ts, order := t.order
    answer := parseIntJ t.answer, skipped := false
    submittedVia := some "timeout" }

/-- `POST /api/timeout-save-answers`: filter the batch down to attempted
tuples; when none remain, acknowledge with success and write nothing;
otherwise batch-write the attempted tuples and report their count. -/
def timeoutSaveAnswers (ts : String) (answers : List AnswerTuple) :
    TimeoutResponse × List WriteOp :=
  let attempted := answers.filter timeoutAttempted
  if attempted.isEmpty then ({ success := true, savedCount := none }, [])
  else
    ({ success := true, savedCount := some attempted.length },
      attempted.map fun t =>
        .setAnswer t.registrationNumber (formatQuestionId t.questionId)
          (timeoutRecord ts t))

/-- An element of the `answers` array of `POST /api/complete-exam`
(`registrationNumber`/`examName` come from the request envelope there). -/
structure CompletionTuple where
  questionId : List Char
  answer : JVal
  order : JVal
  skipped : Bool
deriving DecidableEq, Repr

/-- Request body of `POST /api/complete-exam`. -/
structure CompleteExamRequest where
  candidateId : Option String
  examName : Option String
  answers : List CompletionTuple
deriving Repr

inductive CompleteExamResponse where
  | missingFields
  | completed (totalAnswers : Nat) (skippedCount : Nat)
deriving DecidableEq, Repr

/-- The answer data written by the completion path for one tuple:
`answer: skipped ? null : parseInt(answer)`, `skipped: skipped || false`,
provenance tag `completion`. -/
def completionRecord (examName ts : String) (t : CompletionTuple) :
    AnswerRecord :=
  { examName := examName, timestamp := ts, order := t.order
    answer := if t.skipped then .null else parseIntJ t.answer
    skipped := t.skipped
    submittedVia := some "completion" }

/-- `POST /api/complete-exam`: reject with 400 when
`!candidateId || !examName` (the `answers` field, embedded as a list, is
always an array); otherwise build a single batch holding the candidate
update (`submitted: true`, `examCompletedAt`) followed by one answer
write per tuple, and report the total and skipped counts. -/
def completeExam (ts : String) (r : CompleteExamRequest) :
    CompleteExamResponse × List WriteOp :=
  if !truthyS r.candidateId || !truthyS r.examName then (.missingFields, [])
  else
    (.completed r.answers.length (r.answers.filter (·.skipped)).length,
      .updateCandidate (r.candidateId.getD "") ts ::
        r.answers.map fun t =>
          .setAnswer (r.candidateId.getD "") (formatQuestionId t.questionId)
            (completionRecord (r.examName.getD "") ts t))

/-- A Candidate document (only the fields the embedded handlers read or
write). -/
structure CandidateDoc where
  exam : String
  submitted : Bool
  examCompletedAt : Option String
deriving Repr

/-- The document store visible to the embedded handlers: Candidate
documents keyed by registration number, and answer documents keyed by
(registration number, canonical question key). -/
structure Store where
  candidates : String → Option CandidateDoc
  answers : String → List Char → Option AnswerRecord

/-- Apply one write to the store.  `updateCandidate` models Firestore's
`update`, a partial merge setting `submitted := true` and the completion
timestamp. -/
def applyOp (s : Store) : WriteOp → Store
  | .setAnswer reg key rec =>
    { s with
      answers := fun r k =>
        if r = reg ∧ k = key then some rec else s.answers r k }
  | .updateCandidate cid doneAt =>
    { s with
      candidates := fun c =>
        if c = cid then
          (s.candidates c).map fun d =>
            { d with submitted := true, examCompletedAt := some doneAt }
        else s.candidates c }

/-- Firestore's batched commit is all-or-nothing: when the commit
succeeds every operation of the batch is applied, and when it fails
(`ok = false`) the store is left unchanged. -/
def commitBatch (ok : Bool) (s : Store) (ops : List WriteOp) : Store :=
  if ok then ops.foldl applyOp s else s

/-- A Question document as read by the scoring loop: its `order` and its
`correctAnswer` (both stored as integers by the admin question-creation
handlers, which apply `parseInt`). -/
structure Question where
  order : Int
  correctAnswer : Int
deriving DecidableEq, Repr

/-- `answers.find(a => a.order === question.order)`: the first stored
answer whose denormalized `order` strictly equals the question's. -/
def findCandidateAnswer (answers : List AnswerRecord) (q : Question) :
    Option AnswerRecord :=
  answers.find? fun a => jsStrictEq a.order (.int q.order)

/-- One iteration of the scoring loop over the pair
(correctAnswers, skippedQuestions):
no matching answer or a skipped one increments `skipped`; a matching,
non-skipped answer strictly equal to `correctAnswer` increments
`correct`; anything else changes nothing. -/
def scoreStep (answers : List AnswerRecord) (cs : Nat × Nat) (q : Question) :
    Nat × Nat :=
  match findCandidateAnswer answers q with
  | none => (cs.1, cs.2 + 1)
  | some a =>
    if a.skipped then (cs.1, cs.2 + 1)
    else if jsStrictEq a.answer (.int q.correctAnswer) then (cs.1 + 1, cs.2)
    else cs

/-- The scoring loop: fold `scoreStep` over the exam's questions starting
from zero counts. -/
def scoreCounts (questions : List Question) (answers : List AnswerRecord) :
    Nat × Nat :=
  questions.foldl (scoreStep answers) (0, 0)

/-- The per-candidate result object materialized by the results handler. -/
structure ResultData where
  totalQuestions : Nat
  correctAnswers : Nat
  skippedQuestions : Nat
  wrongAnswers : Int
deriving DecidableEq, Repr

/-- Assemble the result record:
`totalQuestions = examQuestions.length`,
`wrongAnswers = examQuestions.length - (correctAnswers + skippedQuestions)`. -/
def computeResult (questions : List Question) (answers : List AnswerRecord) :
    ResultData :=
  { totalQuestions := questions.length
    correctAnswers := (scoreCounts questions answers).1
    skippedQuestions := (scoreCounts questions answers).2
    wrongAnswers := (questions.length : Int) -
      ((scoreCounts questions answers).1 + (scoreCounts questions answers).2) }

/-- An Exam document: its id (the title), the optional
`dateTime?.date` field, and its Questions (read sorted by `order`). -/
structure ExamDoc where
  id : String
  date : Option String
  questions : List Question
deriving DecidableEq, Repr

/-- A Candidate row joined with its stored answers, as the results
handler reads it. -/
structure CandidateRow where
  registrationNumber : String
  exam : String
  answers : List AnswerRecord
deriving DecidableEq, Repr

inductive TodayResultsResponse where
  | notFound
  | ok (examId : String) (results : List (String × ResultData))
deriving DecidableEq, Repr

/-- `GET /api/today-exam-results`: pick the first exam whose
`dateTime?.date` equals today's `YYYY-MM-DD` string; with none, answer
404 and materialize nothing; otherwise score exactly the candidates whose
`exam` field equals the found exam's id and write each result to
`Results/<examId>/<registrationNumber>`.  The second component is the
list of materialized writes `(examId, registrationNumber, result)`. -/
def todayExamResults (today : String) (exams : List ExamDoc)
    (cands : List CandidateRow) :
    TodayResultsResponse × List (String × String × ResultData) :=
  match exams.find? (fun e => e.date == some today) with
  | none => (.notFound, [])
  | some ex =>
    let scored := (cands.filter (fun c => c.exam == ex.id)).map fun c =>
      (c.registrationNumber, computeResult ex.questions c.answers)
    (.ok ex.id scored, scored.map fun p => (ex.id, p.1, p.2))

/-- A call to the payment gateway issued after signature verification. -/
inductive GatewayCall where
  | fetchPayment (paymentId : String)
  | fetchOrder (orderId : String)
deriving DecidableEq, Repr

inductive VerifyOutcome where
  | missingParams
  | signatureMismatch
  | proceed
deriving DecidableEq, Repr

/-- `POST /api/verify-payment`, up to the signature gate: reject missing
parameters; recompute `hmacHex secret (orderId + "|" + paymentId)`
(the HMAC-SHA256 hex digest, embedded as an opaque collaborator
function); on mismatch with the supplied signature answer 400 with no
gateway call; on match proceed to fetch the payment and the order. -/
def verifyPaymentCheck (hmacHex : String → String → String) (secret : String)
    (orderId paymentId signature : Option String) :
    VerifyOutcome × List GatewayCall :=
  if !truthyS orderId || !truthyS paymentId || !truthyS signature then
    (.missingParams, [])
  else
    let text := orderId.getD "" ++ "|" ++ paymentId.getD ""
    if hmacHex secret text ≠ signature.getD "" then (.signatureMismatch, [])
    else (.proceed, [.fetchPayment (paymentId.getD ""), .fetchOrder (orderId.getD "")])

/-- Spec-side predicate: the question counts as skipped — no stored
answer shares its order value, or the matching answer is skipped. -/
def questionSkipped (answers : List AnswerRecord) (q : Question) : Bool :=
  match findCandidateAnswer answers q with
  | none => true
  | some a => a.skipped

/-- Spec-side predicate: the question counts as correct — its matching
answer exists, is not skipped, and strictly equals the correct index. -/
def questionCorrect (answers : List AnswerRecord) (q : Question) : Bool :=
  match findCandidateAnswer answers q with
  | none => false
  | some a => !a.skipped && jsStrictEq a.answer (.int q.correctAnswer)

/-- Whether a write's answer key carries the `Q` marker (candidate
updates carry no answer key and count vacuously). -/
def writeKeyHasMarker : WriteOp → Bool
  | .setAnswer _ key _ => ['Q'].isPrefixOf key
  | .updateCandidate _ _ => true

/-- Whether a write records a skip (`skipped = true` in the stored
answer data). -/
def writesSkip : WriteOp → Bool
  | .setAnswer _ _ rcd => rcd.skipped
  | .updateCandidate _ _ => false

theorem formatQuestionId_startsWith (q : List Char) :
    ['Q'].isPrefixOf (formatQuestionId q) = true := by
  unfold formatQuestionId
  by_cases h : ['Q'].isPrefixOf q = true
  · simp [h]
  · simp [h, List.isPrefixOf_iff_prefix]

theorem formatQuestionId_idem (q : List Char) :
    formatQuestionId (formatQuestionId q) = formatQuestionId q := by
  unfold formatQuestionId
  by_cases h : ['Q'].isPrefixOf q = true
  · simp [h]
  · simp [h, List.isPrefixOf_iff_prefix]


theorem scoreCounts_foldl (answers : List AnswerRecord)
    (questions : List Question) (c s : Nat) :
    questions.foldl (scoreStep answers) (c, s) =
      (c + questions.countP (questionCorrect answers),
       s + questions.countP (questionSkipped answers)) := by
  induction questions generalizing c s with
  | nil => simp
  | cons q qs ih =>
    rw [List.foldl_cons, List.countP_cons, List.countP_cons]
    cases hf : findCandidateAnswer answers q with
    | none =>
      have h1 : questionSkipped answers q = true := by
        simp [questionSkipped, hf]
      have h2 : questionCorrect answers q = false := by
        simp [questionCorrect, hf]
      have hstep : scoreStep answers (c, s) q = (c, s + 1) := by
        simp [scoreStep, hf]
      rw [hstep, ih, h1, h2]
      simp [Prod.ext_iff]
      omega
    | some a =>
      by_cases hs : a.skipped = true
      · have h1 : questionSkipped answers q = true := by
          simp [questionSkipped, hf, hs]
        have h2 : questionCorrect answers q = false := by
          simp [questionCorrect, hf, hs]
        have hstep : scoreStep answers (c, s) q = (c, s + 1) := by
          simp [scoreStep, hf, hs]
        rw [hstep, ih, h1, h2]
        simp [Prod.ext_iff]
        omega
      · by_cases he : jsStrictEq a.answer (.int q.correctAnswer) = true
        · have h1 : questionSkipped answers q = false := by
            simp [questionSkipped, hf]
            exact Bool.not_eq_true a.skipped ▸ hs
          have h2 : questionCorrect answers q = true := by
            simp [questionCorrect, hf, he]
            exact Bool.not_eq_true a.skipped ▸ hs
          have hstep : scoreStep answers (c, s) q = (c + 1, s) := by
            simp [scoreStep, hf, hs, he]
          rw [hstep, ih, h1, h2]
          simp [Prod.ext_iff]
          omega
        · have h1 : questionSkipped answers q = false := by
            simp [questionSkipped, hf]
            exact Bool.not_eq_true a.skipped ▸ hs
          have h2 : questionCorrect answers q = false := by
            simp [questionCorrect, hf]
            intro
            simpa using he
          have hstep : scoreStep answers (c, s) q = (c, s) := by
            simp [scoreStep, hf, hs, he]
          rw [hstep, ih, h1, h2]
          simp

theorem scoreCounts_eq_countP (questions : List Question)
    (answers : List AnswerRecord) :
    scoreCounts questions answers =
      (questions.countP (questionCorrect answers),
       questions.countP (questionSkipped answers)) := by
  unfold scoreCounts
  rw [scoreCounts_foldl]
  simp

/-- C1: for every question set and stored-answer set, the scoring
operation returns `skipped` equal to the number of questions with no
matching-order answer or a skipped matching answer, `correct` equal to
the number of questions whose matching non-skipped answer strictly
equals the correct index, `total` equal to the question count, `wrong`
equal to `total - correct - skipped` (so `correct + skipped + wrong =
total`), and a candidate with zero stored answers scores
`skipped = total, correct = 0, wrong = 0`. -/
theorem today_exam_results_scoring_correct (questions : List Question)
    (answers : List AnswerRecord) :
    (computeResult questions answers).skippedQuestions =
      questions.countP (questionSkipped answers) ∧
    (computeResult questions answers).correctAnswers =
      questions.countP (questionCorrect answers) ∧
    (computeResult questions answers).totalQuestions = questions.length ∧
    (computeResult questions answers).wrongAnswers =
      ((computeResult questions answers).totalQuestions : Int) -
        (computeResult questions answers).correctAnswers -
        (computeResult questions answers).skippedQuestions ∧
    ((computeResult questions answers).correctAnswers : Int) +
        (computeResult questions answers).skippedQuestions +
        (computeResult questions answers).wrongAnswers =
      (computeResult questions answers).totalQuestions ∧
    computeResult questions [] =
      { totalQuestions := questions.length
        correctAnswers := 0
        skippedQuestions := questions.length
        wrongAnswers := 0 } := by
  have hc := scoreCounts_eq_countP questions answers
  have hnil := scoreCounts_eq_countP questions []
  have hskipnil : questions.countP (questionSkipped []) = questions.length := by
    apply List.countP_eq_length.mpr
    intro q hq
    simp [questionSkipped, findCandidateAnswer]
  have hcornil : questions.countP (questionCorrect []) = 0 := by
    apply List.countP_eq_zero.mpr
    intro q hq
    simp [questionCorrect, findCandidateAnswer]
  refine ⟨?_, ?_, ?_, ?_, ?_, ?_⟩
  · simp [computeResult, hc]
  · simp [computeResult, hc]
  · simp [computeResult]
  · simp [computeResult]
    ring
  · simp [computeResult]
  · simp [computeResult, hnil, hskipnil, hcornil]


theorem findCandidateAnswer_middle (a1 ex a2 : List AnswerRecord)
    (q : Question)
    (h : ∀ a ∈ ex, jsStrictEq a.order (.int q.order) = false) :
    findCandidateAnswer (a1 ++ ex ++ a2) q = findCandidateAnswer (a1 ++ a2) q := by
  unfold findCandidateAnswer
  have hnone : ex.find? (fun a => jsStrictEq a.order (.int q.order)) = none := by
    rw [List.find?_eq_none]
    intro x hx
    simp [h x hx]
  rw [List.find?_append, List.find?_append, List.find?_append, hnone]
  simp

/-- C8: scoring is invariant under extra stored answers whose order
matches no question's order — inserting such answers anywhere in the
answer list leaves the computed result (correct, skipped, wrong, total)
unchanged. -/
theorem scoring_ignores_unmatched_answers (questions : List Question)
    (a1 ex a2 : List AnswerRecord)
    (h : ∀ a ∈ ex, ∀ q ∈ questions, jsStrictEq a.order (.int q.order) = false) :
    computeResult questions (a1 ++ ex ++ a2) = computeResult questions (a1 ++ a2) := by
  have hfind : ∀ q ∈ questions,
      findCandidateAnswer (a1 ++ ex ++ a2) q = findCandidateAnswer (a1 ++ a2) q :=
    fun q hq => findCandidateAnswer_middle a1 ex a2 q (fun a ha => h a ha q hq)
  have hskip : questions.countP (questionSkipped (a1 ++ ex ++ a2)) =
      questions.countP (questionSkipped (a1 ++ a2)) := by
    apply List.countP_congr
    intro q hq
    unfold questionSkipped
    rw [hfind q hq]
  have hcor : questions.countP (questionCorrect (a1 ++ ex ++ a2)) =
      questions.countP (questionCorrect (a1 ++ a2)) := by
    apply List.countP_congr
    intro q hq
    unfold questionCorrect
    rw [hfind q hq]
  unfold computeResult
  rw [scoreCounts_eq_countP, scoreCounts_eq_countP, hskip, hcor]

/-- Witness for C8 at a concrete input: one question of order 1, one
matching correct answer, one stale answer of order 99. -/
theorem scoring_ignores_unmatched_answers_witness :
    (∀ a ∈ ([⟨"E", "t", .int 99, .int 1, false, none⟩] : List AnswerRecord),
      ∀ q ∈ ([⟨1, 0⟩] : List Question),
        jsStrictEq a.order (.int q.order) = false) ∧
    computeResult [⟨1, 0⟩]
        ([⟨"E", "t", .int 1, .int 0, false, none⟩] ++
          [⟨"E", "t", .int 99, .int 1, false, none⟩] ++ []) =
      computeResult [⟨1, 0⟩] ([⟨"E", "t", .int 1, .int 0, false, none⟩] ++ []) :=
  ⟨by decide,
    scoring_ignores_unmatched_answers [⟨1, 0⟩]
      [⟨"E", "t", .int 1, .int 0, false, none⟩]
      [⟨"E", "t", .int 99, .int 1, false, none⟩] [] (by decide)⟩

/-- C7: when no exam's scheduled date equals today the results operation
answers 404 with no materialized write; when one is found, every
materialized write belongs to a candidate registered to that exam and
carries that candidate's computed result. -/
theorem today_exam_selection (today : String) (exams : List ExamDoc)
    (cands : List CandidateRow) :
    ((∀ e ∈ exams, e.date ≠ some today) →
      todayExamResults today exams cands = (.notFound, [])) ∧
    (∀ ex, exams.find? (fun e => e.date == some today) = some ex →
      ∀ w ∈ (todayExamResults today exams cands).2,
        w.1 = ex.id ∧
        ∃ c ∈ cands, c.exam = ex.id ∧ c.registrationNumber = w.2.1 ∧
          w.2.2 = computeResult ex.questions c.answers) := by
  constructor
  · intro h
    unfold todayExamResults
    have hn : exams.find? (fun e => e.date == some today) = none := by
      rw [List.find?_eq_none]
      intro e he
      simp [h e he]
    rw [hn]
  · intro ex hex w hw
    unfold todayExamResults at hw
    rw [hex] at hw
    simp only [List.mem_map, List.mem_filter] at hw
    obtain ⟨⟨reg, rData⟩, ⟨c, ⟨hc, hcexam⟩, hceq⟩, hweq⟩ := hw
    subst hweq
    constructor
    · rfl
    · refine ⟨c, hc, by simpa using hcexam, ?_, ?_⟩
      · simpa using congrArg Prod.fst hceq
      · simpa using (congrArg Prod.snd hceq).symm

/-- Witness for C7 at a concrete input: one exam dated away from today
yields 404 and no writes. -/
theorem today_exam_selection_witness :
    todayExamResults "2026-10-11" [⟨"MathExam", some "2026-01-01", []⟩] [] =
      (.notFound, []) :=
  (today_exam_selection "2026-10-11" [⟨"MathExam", some "2026-01-01", []⟩] []).1
    (by decide)


/-- C5: the question-id normalization prepends the `Q` marker exactly
when absent, is idempotent, sends `"5"` and `"Q5"` to the same stored
slot, and every answer key written by any of the four submission paths
carries the marker. -/
theorem question_id_canonicalization :
    (∀ q, formatQuestionId (formatQuestionId q) = formatQuestionId q) ∧
    formatQuestionId ['5'] = ['Q', '5'] ∧
    formatQuestionId ['Q', '5'] = ['Q', '5'] ∧
    (∀ ts r, ∀ op ∈ (saveAnswer ts r).2, writeKeyHasMarker op = true) ∧
    (∀ ts l, ∀ op ∈ (saveAllAnswers ts l).2, writeKeyHasMarker op = true) ∧
    (∀ ts l, ∀ op ∈ (timeoutSaveAnswers ts l).2, writeKeyHasMarker op = true) ∧
    (∀ ts r, ∀ op ∈ (completeExam ts r).2, writeKeyHasMarker op = true) := by
  refine ⟨formatQuestionId_idem, by decide, by decide, ?_, ?_, ?_, ?_⟩
  · intro ts r op hop
    unfold saveAnswer at hop
    by_cases hv : (!truthyS r.registrationNumber || !truthyC r.questionId ||
        r.answer == .undefinedJ || !truthyS r.examName) = true
    · simp [hv] at hop
    · simp only [hv, Bool.false_eq_true, if_false, if_neg] at hop
      simp at hop
      subst hop
      simp [writeKeyHasMarker, formatQuestionId_startsWith]
  · intro ts l op hop
    unfold saveAllAnswers at hop
    by_cases hv : l.isEmpty = true
    · simp [hv] at hop
    · simp [hv, List.mem_map] at hop
      obtain ⟨t, _, hop⟩ := hop
      subst hop
      simp [writeKeyHasMarker, formatQuestionId_startsWith]
  · intro ts l op hop
    unfold timeoutSaveAnswers at hop
    by_cases hv : (l.filter timeoutAttempted).isEmpty = true
    · simp [hv] at hop
    · simp [hv, List.mem_map] at hop
      obtain ⟨t, _, hop⟩ := hop
      subst hop
      simp [writeKeyHasMarker, formatQuestionId_startsWith]
  · intro ts r op hop
    unfold completeExam at hop
    by_cases hv : (!truthyS r.candidateId || !truthyS r.examName) = true
    · simp [hv] at hop
    · simp [hv, List.mem_cons, List.mem_map] at hop
      rcases hop with hop | ⟨t, _, hop⟩
      · subst hop
        simp [writeKeyHasMarker]
      · subst hop
        simp [writeKeyHasMarker, formatQuestionId_startsWith]

/-- Witness for C5 at a concrete input: the key written by an individual
save of raw question id `"5"` carries the marker. -/
theorem question_id_canonicalization_witness :
    writeKeyHasMarker
      (WriteOp.setAnswer "REG1" ['Q', '5']
        (individualRecord "t"
          { registrationNumber := some "REG1", questionId := some ['5']
            answer := .int 2, examName := some "E", order := .int 5
            skipped := false })) = true :=
  question_id_canonicalization.2.2.2.1 "t"
    { registrationNumber := some "REG1", questionId := some ['5']
      answer := .int 2, examName := some "E", order := .int 5
      skipped := false }
    (WriteOp.setAnswer "REG1" ['Q', '5']
      (individualRecord "t"
        { registrationNumber := some "REG1", questionId := some ['5']
          answer := .int 2, examName := some "E", order := .int 5
          skipped := false }))
    (by decide)


/-- C6: the individual save fails with MissingField, writing nothing,
exactly when registrationNumber, questionId or examName is absent
(falsy) or `answer === undefined`; in particular `answer = 0` with the
other fields present is accepted and persisted with stored answer 0. -/
theorem save_answer_missing_field (ts : String) (r : SaveAnswerRequest) :
    ((saveAnswer ts r).1 = .missingFields ↔
      (truthyS r.registrationNumber = false ∨ truthyC r.questionId = false ∨
        r.answer = .undefinedJ ∨ truthyS r.examName = false)) ∧
    ((saveAnswer ts r).1 = .missingFields → (saveAnswer ts r).2 = []) ∧
    (truthyS r.registrationNumber = true → truthyC r.questionId = true →
      truthyS r.examName = true → r.answer = .int 0 →
      (saveAnswer ts r).1 = .saved ∧
      (saveAnswer ts r).2 =
        [.setAnswer (r.registrationNumber.getD "")
          (formatQuestionId (r.questionId.getD [])) (individualRecord ts r)] ∧
      (individualRecord ts r).answer = .int 0) := by
  have hcond : (!truthyS r.registrationNumber || !truthyC r.questionId ||
      r.answer == .undefinedJ || !truthyS r.examName) = true ↔
      (truthyS r.registrationNumber = false ∨ truthyC r.questionId = false ∨
        r.answer = .undefinedJ ∨ truthyS r.examName = false) := by
    simp [Bool.or_eq_true, Bool.not_eq_true']
    tauto
  by_cases hv : (!truthyS r.registrationNumber || !truthyC r.questionId ||
      r.answer == .undefinedJ || !truthyS r.examName) = true
  · refine ⟨?_, ?_, ?_⟩
    · simp only [saveAnswer, hv, if_true]
      simpa using hcond.mp hv
    · intro
      simp [saveAnswer, hv]
    · intro h1 h2 h3 h4
      exfalso
      rcases hcond.mp hv with h | h | h | h
      · rw [h1] at h; exact Bool.true_eq_false ▸ h
      · rw [h2] at h; exact Bool.true_eq_false ▸ h
      · rw [h4] at h; cases h
      · rw [h3] at h; exact Bool.true_eq_false ▸ h
  · refine ⟨?_, ?_, ?_⟩
    · simp only [saveAnswer, hv, if_false, Bool.false_eq_true]
      constructor
      · intro h
        cases h
      · intro h
        exact absurd (hcond.mpr h) hv
    · intro h
      exfalso
      simp only [saveAnswer, hv, if_false, Bool.false_eq_true] at h
      cases h
    · intro h1 h2 h3 h4
      refine ⟨?_, ?_, ?_⟩
      · simp [saveAnswer, hv]
      · simp [saveAnswer, hv]
      · simp [individualRecord, h4, parseIntJ]

/-- Witness for C6 at a concrete input: an individual save with
`answer = 0` and all fields present is accepted and stores answer 0. -/
theorem save_answer_missing_field_witness :
    (saveAnswer "t"
        { registrationNumber := some "REG1", questionId := some ['1']
          answer := .int 0, examName := some "E", order := .int 1
          skipped := false }).1 = .saved ∧
    (individualRecord "t"
        { registrationNumber := some "REG1", questionId := some ['1']
          answer := .int 0, examName := some "E", order := .int 1
          skipped := false }).answer = .int 0 :=
  ⟨((save_answer_missing_field "t"
      { registrationNumber := some "REG1", questionId := some ['1']
        answer := .int 0, examName := some "E", order := .int 1
        skipped := false }).2.2 (by decide) (by decide) (by decide)
        (by decide)).1,
    ((save_answer_missing_field "t"
      { registrationNumber := some "REG1", questionId := some ['1']
        answer := .int 0, examName := some "E", order := .int 1
        skipped := false }).2.2 (by decide) (by decide) (by decide)
        (by decide)).2.2⟩

/-- C9: the payment verifier recomputes the HMAC hex digest over
`orderId + "|" + paymentId` with the shared secret; a mismatch with the
supplied signature yields SignatureMismatch with no gateway call, and
gateway calls are issued only when the digests match. -/
theorem verify_payment_signature_gate (hmacHex : String → String → String)
    (secret o p sig : String) (ho : o ≠ "") (hp : p ≠ "") (hs : sig ≠ "") :
    (hmacHex secret (o ++ "|" ++ p) ≠ sig →
      verifyPaymentCheck hmacHex secret (some o) (some p) (some sig) =
        (.signatureMismatch, [])) ∧
    ((verifyPaymentCheck hmacHex secret (some o) (some p) (some sig)).2 ≠ [] →
      hmacHex secret (o ++ "|" ++ p) = sig) := by
  have ht : (!truthyS (some o) || !truthyS (some p) ||
      !truthyS (some sig)) = false := by
    simp [truthyS, ho, hp, hs]
  constructor
  · intro hne
    unfold verifyPaymentCheck
    rw [ht]
    simp [hne]
  · intro hcalls
    by_contra hne
    apply hcalls
    unfold verifyPaymentCheck
    rw [ht]
    simp [hne]

/-- Witness for C9 at a concrete input: with a dummy digest function the
verifier rejects a non-matching signature with no gateway call. -/
theorem verify_payment_signature_gate_witness :
    verifyPaymentCheck (fun k t => k ++ t) "k" (some "o") (some "p")
        (some "bad") = (.signatureMismatch, []) :=
  (verify_payment_signature_gate (fun k t => k ++ t) "k" "o" "p" "bad"
    (by decide) (by decide) (by decide)).1 (by decide)

/-- C3: the timeout path persists exactly the batch entries that are not
skipped and whose answer is neither null nor undefined, never writes a
skip record, reports the filtered size as its saved count when the
filtered set is non-empty, and acknowledges success writing nothing when
it is empty. -/
theorem timeout_save_filtering (ts : String) (answers : List AnswerTuple) :
    ((timeoutSaveAnswers ts answers).1).success = true ∧
    (timeoutSaveAnswers ts answers).2 =
      (answers.filter fun t =>
          !t.skipped && t.answer != .null && t.answer != .undefinedJ).map
        (fun t => .setAnswer t.registrationNumber
          (formatQuestionId t.questionId) (timeoutRecord ts t)) ∧
    (∀ op ∈ (timeoutSaveAnswers ts answers).2, writesSkip op = false) ∧
    (answers.filter timeoutAttempted ≠ [] →
      ((timeoutSaveAnswers ts answers).1).savedCount =
        some (answers.filter timeoutAttempted).length) ∧
    (answers.filter timeoutAttempted = [] →
      (timeoutSaveAnswers ts answers).1 =
        { success := true, savedCount := none } ∧
      (timeoutSaveAnswers ts answers).2 = []) := by
  have hfe : (answers.filter fun t =>
      !t.skipped && t.answer != .null && t.answer != .undefinedJ) =
      answers.filter timeoutAttempted := rfl
  rw [hfe]
  by_cases hv : (answers.filter timeoutAttempted).isEmpty = true
  · have hnil : answers.filter timeoutAttempted = [] :=
      List.isEmpty_iff.mp hv
    refine ⟨?_, ?_, ?_, ?_, ?_⟩
    · simp [timeoutSaveAnswers, hv]
    · simp [timeoutSaveAnswers, hv, hnil]
    · intro op hop
      simp [timeoutSaveAnswers, hv] at hop
    · intro h
      exact absurd hnil h
    · intro
      simp [timeoutSaveAnswers, hv]
  · refine ⟨?_, ?_, ?_, ?_, ?_⟩
    · simp [timeoutSaveAnswers, hv]
    · simp [timeoutSaveAnswers, hv]
    · intro op hop
      simp [timeoutSaveAnswers, hv, List.mem_map] at hop
      obtain ⟨t, _, hop⟩ := hop
      subst hop
      simp [writesSkip, timeoutRecord]
    · intro
      simp [timeoutSaveAnswers, hv]
    · intro h
      exact absurd (List.isEmpty_iff.mpr h) (by simpa using hv)

/-- Witness for C3 at a concrete input: a mixed batch of one attempted,
one skipped and one null-answer entry saves only the attempted entry and
reports count 1. -/
theorem timeout_save_filtering_witness :
    (timeoutSaveAnswers "t"
        [⟨"R", ['1'], .int 2, "E", .int 1, false⟩,
          ⟨"R", ['2'], .int 1, "E", .int 2, true⟩,
          ⟨"R", ['3'], .null, "E", .int 3, false⟩]).1.savedCount =
      some 1 :=
  (timeout_save_filtering "t"
      [⟨"R", ['1'], .int 2, "E", .int 1, false⟩,
        ⟨"R", ['2'], .int 1, "E", .int 2, true⟩,
        ⟨"R", ['3'], .null, "E", .int 3, false⟩]).2.2.2.1 (by decide)


theorem foldl_applyOp_candidates (ops : List WriteOp) (s : Store)
    (h : ∀ op ∈ ops, touchesCandidate op = false) :
    (ops.foldl applyOp s).candidates = s.candidates := by
  induction ops generalizing s with
  | nil => rfl
  | cons op rest ih =>
    cases op with
    | setAnswer reg k rc =>
      rw [List.foldl_cons,
        ih _ (fun o ho => h o (List.mem_cons_of_mem _ ho))]
      rfl
    | updateCandidate cid t =>
      exact absurd (h _ (List.mem_cons_self _ _)) (by simp [touchesCandidate])

theorem foldl_applyOp_answers_none (ops : List WriteOp) (s : Store)
    (reg : String) (k : List Char)
    (h : ∀ rc, WriteOp.setAnswer reg k rc ∉ ops) :
    (ops.foldl applyOp s).answers reg k = s.answers reg k := by
  induction ops generalizing s with
  | nil => rfl
  | cons op rest ih =>
    rw [List.foldl_cons,
      ih _ (fun rc hmem => h rc (List.mem_cons_of_mem _ hmem))]
    cases op with
    | updateCandidate _ _ => rfl
    | setAnswer reg2 k2 rc =>
      have hne : ¬(reg = reg2 ∧ k = k2) := by
        rintro ⟨rfl, rfl⟩
        exact h rc (List.mem_cons_self _ _)
      simp [applyOp, hne]

theorem foldl_applyOp_answers_mem (ops : List WriteOp) (s : Store)
    (reg : String) (k : List Char)
    (hex : ∃ rc, WriteOp.setAnswer reg k rc ∈ ops) :
    ∃ rc, (ops.foldl applyOp s).answers reg k = some rc ∧
      WriteOp.setAnswer reg k rc ∈ ops := by
  induction ops generalizing s with
  | nil =>
    obtain ⟨rc, h⟩ := hex
    simp at h
  | cons op rest ih =>
    by_cases hrest : ∃ rc, WriteOp.setAnswer reg k rc ∈ rest
    · obtain ⟨rc, hfin, hmem⟩ := ih (applyOp s op) hrest
      exact ⟨rc, by rw [List.foldl_cons]; exact hfin,
        List.mem_cons_of_mem _ hmem⟩
    · obtain ⟨rc, hmem⟩ := hex
      rcases List.mem_cons.mp hmem with heq | hmem2
      · rw [List.foldl_cons]
        rw [foldl_applyOp_answers_none rest _ reg k
          (fun rc2 h2 => hrest ⟨rc2, h2⟩)]
        refine ⟨rc, ?_, hmem⟩
        rw [← heq]
        simp [applyOp]
      · exact absurd ⟨rc, hmem2⟩ hrest

/-- C4: only the completion path mutates Candidate state (the other
three ingestion paths emit answer writes only), and the completion batch
is all-or-nothing: a failed commit leaves the store unchanged, while a
successful commit both marks the candidate submitted with the completion
timestamp and persists an answer record (tagged `completion`) for every
tuple of the batch. -/
theorem complete_exam_atomicity (ts : String) (r : CompleteExamRequest)
    (s : Store) :
    (∀ ops, commitBatch false s ops = s) ∧
    (∀ rq, ∀ op ∈ (saveAnswer ts rq).2, touchesCandidate op = false) ∧
    (∀ l, ∀ op ∈ (saveAllAnswers ts l).2, touchesCandidate op = false) ∧
    (∀ l, ∀ op ∈ (timeoutSaveAnswers ts l).2, touchesCandidate op = false) ∧
    (∀ d, truthyS r.candidateId = true → truthyS r.examName = true →
      s.candidates (r.candidateId.getD "") = some d →
      (commitBatch true s (completeExam ts r).2).candidates
          (r.candidateId.getD "") =
        some { d with submitted := true, examCompletedAt := some ts } ∧
      (∀ t ∈ r.answers, ∃ rc,
        (commitBatch true s (completeExam ts r).2).answers
            (r.candidateId.getD "") (formatQuestionId t.questionId) =
          some rc ∧ rc.submittedVia = some "completion")) := by
  refine ⟨?_, ?_, ?_, ?_, ?_⟩
  · intro ops
    simp [commitBatch]
  · intro rq op hop
    unfold saveAnswer at hop
    by_cases hv : (!truthyS rq.registrationNumber || !truthyC rq.questionId ||
        rq.answer == .undefinedJ || !truthyS rq.examName) = true
    · simp [hv] at hop
    · simp [hv] at hop
      subst hop
      rfl
  · intro l op hop
    unfold saveAllAnswers at hop
    by_cases hv : l.isEmpty = true
    · simp [hv] at hop
    · simp [hv, List.mem_map] at hop
      obtain ⟨t, _, hop⟩ := hop
      subst hop
      rfl
  · intro l op hop
    unfold timeoutSaveAnswers at hop
    by_cases hv : (l.filter timeoutAttempted).isEmpty = true
    · simp [hv] at hop
    · simp [hv, List.mem_map] at hop
      obtain ⟨t, _, hop⟩ := hop
      subst hop
      rfl
  · intro d hc he hd
    have hcond : (!truthyS r.candidateId || !truthyS r.examName) = false := by
      simp [hc, he]
    have hops : (completeExam ts r).2 =
        WriteOp.updateCandidate (r.candidateId.getD "") ts ::
          r.answers.map (fun t =>
            WriteOp.setAnswer (r.candidateId.getD "")
              (formatQuestionId t.questionId)
              (completionRecord (r.examName.getD "") ts t)) := by
      simp [completeExam, hcond]
    rw [hops]
    constructor
    · rw [commitBatch, if_pos rfl, List.foldl_cons]
      rw [foldl_applyOp_candidates _ _ ?tail]
      case tail =>
        intro op hop
        simp [List.mem_map] at hop
        obtain ⟨t, _, hop⟩ := hop
        subst hop
        rfl
      simp [applyOp, hd]
    · intro t ht
      have hmem : WriteOp.setAnswer (r.candidateId.getD "")
          (formatQuestionId t.questionId)
          (completionRecord (r.examName.getD "") ts t) ∈
          WriteOp.updateCandidate (r.candidateId.getD "") ts ::
            r.answers.map (fun t =>
              WriteOp.setAnswer (r.candidateId.getD "")
                (formatQuestionId t.questionId)
                (completionRecord (r.examName.getD "") ts t)) := by
        exact List.mem_cons_of_mem _ (List.mem_map_of_mem _ ht)
      obtain ⟨rc, hfin, hrcmem⟩ :=
        foldl_applyOp_answers_mem _ s (r.candidateId.getD "")
          (formatQuestionId t.questionId) ⟨_, hmem⟩
      refine ⟨rc, ?_, ?_⟩
      · rw [commitBatch, if_pos rfl]
        exact hfin
      · rcases List.mem_cons.mp hrcmem with heq | hmem2
        · cases heq
        · simp only [List.mem_map] at hmem2
          obtain ⟨t2, ht2, heq2⟩ := hmem2
          injection heq2 with h1 h2 h3
          rw [← h3]
          rfl

/-- Witness for C4 at a concrete input: committing the completion batch
for candidate `C1` marks it submitted and stores its answer with the
`completion` tag. -/
theorem complete_exam_atomicity_witness :
    (commitBatch true
        ⟨fun c => if c = "C1" then some ⟨"E", false, none⟩ else none,
          fun _ _ => none⟩
        (completeExam "t"
          { candidateId := some "C1", examName := some "E"
            answers := [⟨['1'], .int 2, .int 1, false⟩] }).2).candidates
      "C1" = some ⟨"E", true, some "t"⟩ ∧
    (∃ rc,
      (commitBatch true
          ⟨fun c => if c = "C1" then some ⟨"E", false, none⟩ else none,
            fun _ _ => none⟩
          (completeExam "t"
            { candidateId := some "C1", examName := some "E"
              answers := [⟨['1'], .int 2, .int 1, false⟩] }).2).answers
        "C1" (formatQuestionId ['1']) = some rc ∧
      rc.submittedVia = some "completion") :=
  ⟨((complete_exam_atomicity "t"
      { candidateId := some "C1", examName := some "E"
        answers := [⟨['1'], .int 2, .int 1, false⟩] }
      ⟨fun c => if c = "C1" then some ⟨"E", false, none⟩ else none,
        fun _ _ => none⟩).2.2.2.2 ⟨"E", false, none⟩ (by decide) (by decide)
      (by simp)).1,
    ((complete_exam_atomicity "t"
      { candidateId := some "C1", examName := some "E"
        answers := [⟨['1'], .int 2, .int 1, false⟩] }
      ⟨fun c => if c = "C1" then some ⟨"E", false, none⟩ else none,
        fun _ _ => none⟩).2.2.2.2 ⟨"E", false, none⟩ (by decide) (by decide)
      (by simp)).2 ⟨['1'], .int 2, .int 1, false⟩ (by simp)⟩


/-- C10: the completion path accepts an empty answers array — validation
passes, the candidate is marked submitted with the completion timestamp,
and zero answer records are written — while the bulk save path rejects
an empty array with InvalidFormat before any write. -/
theorem complete_exam_empty_answers (ts cid examName : String) (s : Store)
    (d : CandidateDoc) (hcid : cid ≠ "") (hex : examName ≠ "")
    (hd : s.candidates cid = some d) :
    completeExam ts
        { candidateId := some cid, examName := some examName
          answers := [] } =
      (.completed 0 0, [.updateCandidate cid ts]) ∧
    (commitBatch true s [.updateCandidate cid ts]).candidates cid =
      some { d with submitted := true, examCompletedAt := some ts } ∧
    (∀ reg k, (commitBatch true s [.updateCandidate cid ts]).answers reg k =
      s.answers reg k) ∧
    saveAllAnswers ts [] = (.invalidFormat, []) := by
  have hcond : (!truthyS (some cid) || !truthyS (some examName)) = false := by
    simp [truthyS, hcid, hex]
  refine ⟨?_, ?_, ?_, ?_⟩
  · simp [completeExam, hcond]
  · simp [commitBatch, applyOp, hd]
  · intro reg k
    simp [commitBatch, applyOp]
  · simp [saveAllAnswers]

/-- Witness for C10 at a concrete input: completing with an empty batch
for candidate `C1` marks it submitted and the bulk path rejects the same
empty array. -/
theorem complete_exam_empty_answers_witness :
    completeExam "t"
        { candidateId := some "C1", examName := some "E", answers := [] } =
      (.completed 0 0, [.updateCandidate "C1" "t"]) ∧
    (commitBatch true
        ⟨fun c => if c = "C1" then some ⟨"E", false, none⟩ else none,
          fun _ _ => none⟩
        [.updateCandidate "C1" "t"]).candidates "C1" =
      some ⟨"E", true, some "t"⟩ ∧
    saveAllAnswers "t" [] = (.invalidFormat, []) :=
  ⟨(complete_exam_empty_answers "t" "C1" "E"
      ⟨fun c => if c = "C1" then some ⟨"E", false, none⟩ else none,
        fun _ _ => none⟩ ⟨"E", false, none⟩ (by decide) (by decide)
      (by simp)).1,
    (complete_exam_empty_answers "t" "C1" "E"
      ⟨fun c => if c = "C1" then some ⟨"E", false, none⟩ else none,
        fun _ _ => none⟩ ⟨"E", false, none⟩ (by decide) (by decide)
      (by simp)).2.1,
    (complete_exam_empty_answers "t" "C1" "E"
      ⟨fun c => if c = "C1" then some ⟨"E", false, none⟩ else none,
        fun _ _ => none⟩ ⟨"E", false, none⟩ (by decide) (by decide)
      (by simp)).2.2.2⟩

/-- C2 counterexample: the claim's coercion rule fails on the individual
save path — a skipped individual save stores `parseInt(answer)` (here
`2`), not `null`, together with `skipped = true`; and the bulk save path
stamps no provenance tag at all. -/
theorem answer_coercion_counterexample :
    (individualRecord "t"
        { registrationNumber := some "R", questionId := some ['Q', '1']
          answer := .int 2, examName := some "E", order := .int 1
          skipped := true }).answer = .int 2 ∧
    ¬(individualRecord "t"
        { registrationNumber := some "R", questionId := some ['Q', '1']
          answer := .int 2, examName := some "E", order := .int 1
          skipped := true }).answer = .null ∧
    (individualRecord "t"
        { registrationNumber := some "R", questionId := some ['Q', '1']
          answer := .int 2, examName := some "E", order := .int 1
          skipped := true }).skipped = true ∧
    (saveAnswer "t"
        { registrationNumber := some "R", questionId := some ['Q', '1']
          answer := .int 2, examName := some "E", order := .int 1
          skipped := true }).2 =
      [.setAnswer "R" ['Q', '1']
        (individualRecord "t"
          { registrationNumber := some "R", questionId := some ['Q', '1']
            answer := .int 2, examName := some "E", order := .int 1
            skipped := true })] ∧
    (bulkAnswerRecord "t" ⟨"R", ['Q', '1'], .int 2, "E", .int 1, false⟩).submittedVia =
      none := by
  decide

/-- C2 amended: the coercion rule (non-skipped stores the integer parse
with `skipped = false`; skipped stores null with `skipped = true`) holds
on the bulk, completion and timeout paths (the timeout path filters
skipped tuples out before writing); on the individual path the stored
answer is always the integer parse of the input — even when skipped —
and the skip flag is passed through.  Every path stamps a write-time
timestamp; the individual, completion and timeout paths stamp their
provenance tags, while the bulk path stamps none. -/
theorem answer_coercion_amended (ts examName : String) (t : AnswerTuple)
    (ct : CompletionTuple) (r : SaveAnswerRequest) :
    ((bulkAnswerRecord ts t).answer =
        (if t.skipped then .null else parseIntJ t.answer) ∧
      (bulkAnswerRecord ts t).skipped = t.skipped ∧
      (bulkAnswerRecord ts t).timestamp = ts ∧
      (bulkAnswerRecord ts t).submittedVia = none) ∧
    ((completionRecord examName ts ct).answer =
        (if ct.skipped then .null else parseIntJ ct.answer) ∧
      (completionRecord examName ts ct).skipped = ct.skipped ∧
      (completionRecord examName ts ct).timestamp = ts ∧
      (completionRecord examName ts ct).submittedVia = some "completion") ∧
    ((timeoutRecord ts t).answer = parseIntJ t.answer ∧
      (timeoutRecord ts t).skipped = false ∧
      (timeoutRecord ts t).timestamp = ts ∧
      (timeoutRecord ts t).submittedVia = some "timeout") ∧
    ((individualRecord ts r).answer = parseIntJ r.answer ∧
      (individualRecord ts r).skipped = r.skipped ∧
      (individualRecord ts r).timestamp = ts ∧
      (individualRecord ts r).submittedVia = some "individual") := by
  refine ⟨⟨?_, ?_, ?_, ?_⟩, ⟨rfl, rfl, rfl, rfl⟩,
    ⟨rfl, rfl, rfl, rfl⟩, ⟨rfl, rfl, rfl, rfl⟩⟩
  · by_cases h : t.skipped = true <;> simp [bulkAnswerRecord, h]
  · by_cases h : t.skipped = true <;> simp [bulkAnswerRecord, h]
  · by_cases h : t.skipped = true <;> simp [bulkAnswerRecord, h]
  · by_cases h : t.skipped = true <;> simp [bulkAnswerRecord, h]

end ExamBackend
